import Mathlib

/-!
Verification of the signal-to-portfolio backtest engine of the
`androxiz/binance_api` repository against its natural-language specification.

The Python sources are shallowly embedded here:
* Floating point series cells are modelled by `FV`, an exact IEEE-754-like
  value: a rational, `+inf`, `-inf` or `NaN`.  Pandas/NumPy elementwise
  arithmetic and comparisons on series cells are translated to the `FV`
  operations below (comparisons against `NaN` are `false`, division of a
  non-zero finite value by zero gives a signed infinity, `0/0` gives `NaN`).
* Per-asset price/volume columns become `List FV` (a missing / NaN point is
  `FV.nan`) or `List ℚ` where the code has already dropped missing values.
* Indicator warm-up cells (pandas `min_periods`) are `FV.nan` / `Option.none`.
* Fallible Python code (exceptions) returns `Except String` values.

Each strategy variant is embedded from its source file
(`strategies/sma_cross.py`, `strategies/rsi_bb.py`,
`strategies/vwap_reversion.py`), the metric helpers from `core/metrics.py`
and `strategies/base.py`, and the runner from `core/backtester.py`.
-/

/-- An exact model of an IEEE-754 double as used by the pandas/NumPy code:
either a finite value (kept exact as a rational), a signed infinity, or NaN.
The sign of zero is not tracked (the embedded code never branches on it). -/
inductive FV where
  | nan : FV
  | pinf : FV
  | ninf : FV
  | fin (q : ℚ) : FV
deriving DecidableEq, Repr

/-- IEEE addition on `FV`: NaN propagates, `+inf + -inf = NaN`. -/
def FV.add : FV → FV → FV
  | .nan, _ => .nan
  | _, .nan => .nan
  | .pinf, .ninf => .nan
  | .ninf, .pinf => .nan
  | .pinf, _ => .pinf
  | _, .pinf => .pinf
  | .ninf, _ => .ninf
  | _, .ninf => .ninf
  | .fin a, .fin b => .fin (a + b)

/-- IEEE negation on `FV`. -/
def FV.neg : FV → FV
  | .nan => .nan
  | .pinf => .ninf
  | .ninf => .pinf
  | .fin a => .fin (-a)

/-- IEEE subtraction on `FV`. -/
def FV.sub (a b : FV) : FV := a.add b.neg

/-- IEEE multiplication on `FV`: NaN propagates, `inf * 0 = NaN`. -/
def FV.mul : FV → FV → FV
  | .nan, _ => .nan
  | _, .nan => .nan
  | .pinf, .pinf => .pinf
  | .pinf, .ninf => .ninf
  | .ninf, .pinf => .ninf
  | .ninf, .ninf => .pinf
  | .pinf, .fin b => if 0 < b then .pinf else if b < 0 then .ninf else .nan
  | .ninf, .fin b => if 0 < b then .ninf else if b < 0 then .pinf else .nan
  | .fin a, .pinf => if 0 < a then .pinf else if a < 0 then .ninf else .nan
  | .fin a, .ninf => if 0 < a then .ninf else if a < 0 then .pinf else .nan
  | .fin a, .fin b => .fin (a * b)

/-- IEEE division on `FV`: `x/0` is a signed infinity for finite non-zero
`x` (the unsigned rational zero is treated as `+0`), `0/0` and `inf/inf`
are NaN, and a finite value divided by an infinity is `0`. -/
def FV.div : FV → FV → FV
  | .nan, _ => .nan
  | _, .nan => .nan
  | .pinf, .pinf => .nan
  | .pinf, .ninf => .nan
  | .ninf, .pinf => .nan
  | .ninf, .ninf => .nan
  | .pinf, .fin b => if b < 0 then .ninf else .pinf
  | .ninf, .fin b => if b < 0 then .pinf else .ninf
  | .fin _, .pinf => .fin 0
  | .fin _, .ninf => .fin 0
  | .fin a, .fin b =>
      if b = 0 then (if 0 < a then .pinf else if a < 0 then .ninf else .nan)
      else .fin (a / b)

/-- IEEE strict `<` on `FV` as computed by NumPy: any comparison against
NaN is `false`. -/
def FV.ltb : FV → FV → Bool
  | .nan, _ => false
  | _, .nan => false
  | .ninf, .ninf => false
  | .ninf, _ => true
  | _, .ninf => false
  | .pinf, _ => false
  | .fin _, .pinf => true
  | .fin a, .fin b => a < b

/-- `true` exactly on NaN. -/
def FV.isNan : FV → Bool
  | .nan => true
  | _ => false

/- ### Indicator Library: simple moving average (`ta.trend.SMAIndicator`)

`SMAIndicator(close, window).sma_indicator()` is
`close.rolling(window, min_periods=window).mean()`: undefined (`none`)
during the first `window - 1` positions, the plain window mean after. -/

/-- Rolling mean of `prices` with window `w` at position `i`
(`min_periods = w`): `none` while the window is not yet full or `i` is out
of range. -/
def smaAt (w : ℕ) (prices : List ℚ) (i : ℕ) : Option ℚ :=
  if i + 1 < w ∨ prices.length ≤ i then none
  else some (((prices.drop (i + 1 - w)).take w).sum / (w : ℚ))

/-- One cell of `SMACrossoverStrategy.generate_signals`
(`strategies/sma_cross.py` lines 51-54):
`np.where(fast_sma > slow_sma, 1, np.where(fast_sma < slow_sma, -1, 0))`,
where a comparison against a warm-up NaN cell is `false`. -/
def smaCrossSignalAt (fast slow : ℕ) (prices : List ℚ) (i : ℕ) : ℤ :=
  match smaAt fast prices i, smaAt slow prices i with
  | some f, some s => if s < f then 1 else if f < s then -1 else 0
  | _, _ => 0

/-- `generate_signals` of the SMA crossover strategy for one asset
(`strategies/sma_cross.py` lines 43-54).  The close column is first
compacted by `dropna()`; the signals are computed over the compacted
series; the resulting NumPy array is then assigned to a column of a
DataFrame indexed by the *full* time axis — pandas raises `ValueError`
when the lengths differ, which is modelled by the `Except.error` branch. -/
def generate_signals_sma (fast slow : ℕ) (closes : List (Option ℚ)) :
    Except String (List ℤ) :=
  let dropped := closes.filterMap id
  let vals := (List.range dropped.length).map (smaCrossSignalAt fast slow dropped)
  if vals.length = closes.length then Except.ok vals
  else Except.error "Length of values does not match length of index"

/- ### Indicator Library: RSI (`ta.momentum.RSIIndicator`)

`RSIIndicator(close, window).rsi()` computes `diff = close.diff(1)`,
`up = diff.where(diff > 0, 0.0)`, `down = -diff.where(diff < 0, 0.0)`
(the leading NaN of `diff` falls into the `0.0` branch), smooths both with
`ewm(alpha=1/window, min_periods=window, adjust=False).mean()`, and returns
`100 - 100 / (1 + up_ema / down_ema)` with float semantics. -/

/-- `close.diff(1)` at position `i`: `none` (NaN) at position 0. -/
def diffAt (prices : List ℚ) (i : ℕ) : Option ℚ :=
  if i = 0 ∨ prices.length ≤ i then none
  else some (prices.getD i 0 - prices.getD (i - 1) 0)

/-- `diff.where(diff > 0, 0.0)` (NaN cells become `0.0`). -/
def upAt (prices : List ℚ) (i : ℕ) : ℚ :=
  match diffAt prices i with
  | some d => if 0 < d then d else 0
  | none => 0

/-- `-diff.where(diff < 0, 0.0)` (NaN cells become `-0.0 = 0`). -/
def downAt (prices : List ℚ) (i : ℕ) : ℚ :=
  match diffAt prices i with
  | some d => if d < 0 then -d else 0
  | none => 0

/-- `xs.ewm(alpha, adjust=False).mean()` at position `i`: the recursion
`y₀ = x₀`, `yₜ = (1 - alpha) yₜ₋₁ + alpha xₜ` folded over the first
`i + 1` cells. -/
def ewmAt (alpha : ℚ) (xs : List ℚ) (i : ℕ) : ℚ :=
  match xs.take (i + 1) with
  | [] => 0
  | x :: rest => rest.foldl (fun y v => (1 - alpha) * y + alpha * v) x

/-- The up-move series of `close` (cell `i` is `upAt`). -/
def upSeries (prices : List ℚ) : List ℚ :=
  (List.range prices.length).map (upAt prices)

/-- The down-move series of `close`. -/
def downSeries (prices : List ℚ) : List ℚ :=
  (List.range prices.length).map (downAt prices)

/-- `RSIIndicator(close, w).rsi()` at position `i`: NaN during the warm-up
(`min_periods = w` on the `ewm`), otherwise `100 - 100/(1 + rs)` with
`rs = up_ema / down_ema` evaluated with float division (`x/0 = +inf` for
`x > 0`, hence RSI `= 100` when `down_ema = 0 < up_ema`; `0/0 = NaN`). -/
def rsiAt (w : ℕ) (prices : List ℚ) (i : ℕ) : FV :=
  if i + 1 < w ∨ prices.length ≤ i then FV.nan
  else
    let emaup := ewmAt (1 / (w : ℚ)) (upSeries prices) i
    let emadn := ewmAt (1 / (w : ℚ)) (downSeries prices) i
    (FV.fin 100).sub
      ((FV.fin 100).div ((FV.fin 1).add ((FV.fin emaup).div (FV.fin emadn))))

/- ### Indicator Library: Bollinger bands (`ta.volatility.BollingerBands`)

`bollinger_lband` is `m - k*s` and `bollinger_hband` is `m + k*s`, where
`m` is `close.rolling(w, min_periods=w).mean()` and `s` is
`close.rolling(w, min_periods=w).std(ddof=0)`.  The square root inside the
standard deviation is kept exact: the band comparisons of the strategy are
decided through the equivalent square comparisons below. -/

/-- Rolling population variance (`std(ddof=0)` squared) of `prices` with
window `w` at position `i`; `none` during warm-up. -/
def rollingVarAt (w : ℕ) (prices : List ℚ) (i : ℕ) : Option ℚ :=
  if i + 1 < w ∨ prices.length ≤ i then none
  else
    let win := (prices.drop (i + 1 - w)).take w
    let m := win.sum / (w : ℚ)
    some ((win.map (fun x => (x - m) ^ 2)).sum / (w : ℚ))

/-- Decides `k * Real.sqrt v ≤ x` for `0 ≤ v` without leaving `ℚ`:
for `0 ≤ k` it is `0 ≤ x ∧ k² v ≤ x²`, for `k < 0` it is
`0 ≤ x ∨ x² ≤ k² v`. -/
def mulSqrtLe (k v x : ℚ) : Bool :=
  if 0 ≤ k then decide (0 ≤ x ∧ k ^ 2 * v ≤ x ^ 2)
  else decide (0 ≤ x ∨ x ^ 2 ≤ k ^ 2 * v)

/-- `close <= bb.bollinger_lband()` at position `i`
(false on warm-up NaN cells): `close ≤ m - k s ↔ k s ≤ m - close`. -/
def closeLeLband (w : ℕ) (k : ℚ) (prices : List ℚ) (i : ℕ) : Bool :=
  match smaAt w prices i, rollingVarAt w prices i with
  | some m, some v => mulSqrtLe k v (m - prices.getD i 0)
  | _, _ => false

/-- `close >= bb.bollinger_hband()` at position `i`
(false on warm-up NaN cells): `m + k s ≤ close ↔ k s ≤ close - m`. -/
def closeGeHband (w : ℕ) (k : ℚ) (prices : List ℚ) (i : ℕ) : Bool :=
  match smaAt w prices i, rollingVarAt w prices i with
  | some m, some v => mulSqrtLe k v (prices.getD i 0 - m)
  | _, _ => false

/-- One cell of `RSIBollingerStrategy.generate_signals`
(`strategies/rsi_bb.py` lines 64-72):
`np.select([rsi < oversold & close <= lband, rsi > overbought & close >= hband],
[1, -1], default=0)`. -/
def rsiBBSignalAt (rsiW bbW : ℕ) (k osold obought : ℚ)
    (prices : List ℚ) (i : ℕ) : ℤ :=
  let longCond := (rsiAt rsiW prices i).ltb (FV.fin osold) && closeLeLband bbW k prices i
  let shortCond := (FV.fin obought).ltb (rsiAt rsiW prices i) && closeGeHband bbW k prices i
  if longCond then 1 else if shortCond then -1 else 0

/-- `generate_signals` of the RSI + Bollinger strategy for one asset
(`strategies/rsi_bb.py` lines 53-72): the same `dropna()`-then-assign
pattern as the SMA strategy, raising `ValueError` on a length mismatch. -/
def generate_signals_rsibb (rsiW bbW : ℕ) (k osold obought : ℚ)
    (closes : List (Option ℚ)) : Except String (List ℤ) :=
  let dropped := closes.filterMap id
  let vals := (List.range dropped.length).map
    (rsiBBSignalAt rsiW bbW k osold obought dropped)
  if vals.length = closes.length then Except.ok vals
  else Except.error "Length of values does not match length of index"

/- ### Indicator Library and Signal Generator: VWAP mean reversion
(`strategies/vwap_reversion.py`).  No `dropna` here: the raw columns are
used, NaN cells propagate through the float arithmetic. -/

/-- `typical_price = (high + low + close) / 3`, elementwise. -/
def typicalPrices (high low close : List FV) : List FV :=
  List.zipWith (fun hl c => (hl.add c).div (FV.fin 3))
    (List.zipWith FV.add high low) close

/-- `xs.rolling(w).sum()` at position `i` (`min_periods` defaults to `w`):
NaN while the window is not full, and NaN as soon as the window holds a
NaN cell (folded `FV.add` propagates it), otherwise the window sum. -/
def rollingSumFV (w : ℕ) (xs : List FV) (i : ℕ) : FV :=
  if i + 1 < w ∨ xs.length ≤ i then FV.nan
  else ((xs.drop (i + 1 - w)).take w).foldl FV.add (FV.fin 0)

/-- `VWAPReversionStrategy.calculate_vwap`
(`strategies/vwap_reversion.py` lines 32-48):
`(typical_price * volume).rolling(w).sum() / volume.rolling(w).sum()`
at position `i`. -/
def calculate_vwap (w : ℕ) (high low close volume : List FV) (i : ℕ) : FV :=
  (rollingSumFV w (List.zipWith FV.mul (typicalPrices high low close) volume) i).div
    (rollingSumFV w volume i)

/-- One cell of `VWAPReversionStrategy.generate_signals`
(`strategies/vwap_reversion.py` lines 62-80):
`deviation = (close - vwap) / vwap` and
`np.select([deviation < -thr, deviation > thr], [1, -1], default=0)`. -/
def vwapSignalAt (w : ℕ) (thr : ℚ) (high low close volume : List FV) (i : ℕ) : ℤ :=
  let vwap := calculate_vwap w high low close volume i
  let dev := ((close.getD i FV.nan).sub vwap).div vwap
  if dev.ltb (FV.fin (-thr)) then 1
  else if (FV.fin thr).ltb dev then -1
  else 0

/- ### Execution Simulator

All three strategies run
`vbt.Portfolio.from_signals(close, entries=signal==1, exits=signal==-1,
fees=commission, slippage=slippage, freq='1m')`
(`sma_cross.py` 58-74, `rsi_bb.py` 76-92, `vwap_reversion.py` 84-100).
With vectorbt's default `direction='longonly'` this is, per asset: an
entry signal opens a long position when flat (buy executed at
`close * (1 + slippage)`), an exit signal closes an open long (sell at
`close * (1 - slippage)`), and every other signal/state combination does
nothing.  The embedding tracks the position/trade ledger of one asset;
commission only scales cash, never the recorded execution prices, and cash
is not needed by any claim. -/

/-- Direction of a position. -/
inductive Dir where
  | long : Dir
  | short : Dir
deriving DecidableEq, Repr

/-- An open position of the simulator. -/
structure Position where
  entryIdx : ℕ
  entryPrice : ℚ
  dir : Dir
deriving DecidableEq, Repr

/-- A closed trade of the simulator. -/
structure TradeLog where
  entryIdx : ℕ
  entryPrice : ℚ
  exitIdx : ℕ
  exitPrice : ℚ
  dir : Dir
deriving DecidableEq, Repr

/-- Simulator state: the open position (if any) and the closed trades so
far, in order. -/
structure SimState where
  pos : Option Position
  trades : List TradeLog
deriving DecidableEq, Repr

/-- One bar of `vbt.Portfolio.from_signals` as called by the repository
(long-only): the cell is `(index, close, signal)`; `signal = 1` is the
entry series, `signal = -1` the exit series. -/
def fromSignalsStep (slippage : ℚ) (st : SimState) (ics : ℕ × ℚ × ℤ) : SimState :=
  match st.pos with
  | none =>
      if ics.2.2 = 1 then
        { st with pos := some ⟨ics.1, ics.2.1 * (1 + slippage), Dir.long⟩ }
      else st
  | some p =>
      if ics.2.2 = -1 then
        { pos := none,
          trades := st.trades ++
            [⟨p.entryIdx, p.entryPrice, ics.1, ics.2.1 * (1 - slippage), p.dir⟩] }
      else st

/-- The Execution Simulator of the repository for one asset: the
`from_signals` run over the (close, signal) series. -/
def from_signals (slippage : ℚ) (closes : List ℚ) (signals : List ℤ) : SimState :=
  ((closes.zip signals).enum).foldl (fromSignalsStep slippage) ⟨none, []⟩

/-- Signal value of the held position: `+1` long, `-1` short, `0` flat. -/
def dirValue : Option Position → ℤ
  | none => 0
  | some p => if p.dir = Dir.long then 1 else -1

/-- Entry price "adjusted for cost" in the specification's sense:
long entries execute at `close * (1 + slippage)`, short entries at
`close * (1 - slippage)`. -/
def specAdjustedEntry (slippage close : ℚ) (s : ℤ) : ℚ :=
  if s = 1 then close * (1 + slippage) else close * (1 - slippage)

/-- Exit price "adjusted for cost": reversed against the direction. -/
def specAdjustedExit (slippage close : ℚ) (d : Dir) : ℚ :=
  if d = Dir.long then close * (1 - slippage) else close * (1 + slippage)

/-- One transition of the FLAT/LONG/SHORT state machine exactly as claim C1
words it: read the signal; if it differs from the held direction, close any
open position at the cost-adjusted close, then, if the new signal is
non-zero, open a position in its direction at the cost-adjusted close; a
signal equal to the held direction causes no action. -/
def specFullStep (slippage : ℚ) (st : SimState) (ics : ℕ × ℚ × ℤ) : SimState :=
  if ics.2.2 = dirValue st.pos then st
  else
    let closed : SimState :=
      match st.pos with
      | none => st
      | some p =>
          { pos := none,
            trades := st.trades ++
              [⟨p.entryIdx, p.entryPrice, ics.1,
                specAdjustedExit slippage ics.2.1 p.dir, p.dir⟩] }
    if ics.2.2 = 0 then closed
    else
      { closed with
        pos := some ⟨ics.1, specAdjustedEntry slippage ics.2.1 ics.2.2,
          if ics.2.2 = 1 then Dir.long else Dir.short⟩ }

/-- The FLAT/LONG/SHORT machine of claim C1 folded over the series. -/
def specStateMachine (slippage : ℚ) (closes : List ℚ) (signals : List ℤ) : SimState :=
  ((closes.zip signals).enum).foldl (specFullStep slippage) ⟨none, []⟩

/-- One transition of the *amended* claim: a FLAT/LONG (long-only) machine —
a `+1` while FLAT opens a long at `close * (1 + slippage)`, a `-1` while
LONG closes it at `close * (1 - slippage)`, every other combination
(`-1` while FLAT, `0` anywhere, a signal equal to the held direction)
causes no action and no SHORT position is ever opened. -/
def specLongOnlyStep (slippage : ℚ) (st : SimState) (ics : ℕ × ℚ × ℤ) : SimState :=
  if ics.2.2 = dirValue st.pos then st
  else if ics.2.2 = 1 ∧ st.pos = none then
    { st with pos := some ⟨ics.1, ics.2.1 * (1 + slippage), Dir.long⟩ }
  else
    match st.pos with
    | some p =>
        if ics.2.2 = -1 then
          { pos := none,
            trades := st.trades ++
              [⟨p.entryIdx, p.entryPrice, ics.1, ics.2.1 * (1 - slippage), p.dir⟩] }
        else st
    | none => st

/-- The long-only machine of the amended claim folded over the series. -/
def specLongOnlyMachine (slippage : ℚ) (closes : List ℚ) (signals : List ℤ) : SimState :=
  ((closes.zip signals).enum).foldl (specLongOnlyStep slippage) ⟨none, []⟩

/- ### Metrics Engine (`core/metrics.py` and `strategies/base.py`) -/

/-- A closed trade record of a vectorbt portfolio
(`portfolio.trades.records`): entry/exit bar positions and the trade's
profit-and-loss. -/
structure Trade where
  entryIdx : ℕ
  exitIdx : ℕ
  pnl : ℚ
deriving DecidableEq, Repr

/-- Arithmetic mean of a list (`.mean()` of a non-empty series). -/
def listMean (l : List ℚ) : ℚ := l.sum / (l.length : ℚ)

/-- Ascending sort (`pd.Series` sorting used by `.median()`). -/
def sortedAsc (l : List ℚ) : List ℚ := l.insertionSort (· ≤ ·)

/-- `pd.Series(l).median()` for a non-empty list: middle element of the
sorted list for odd length, mean of the two middles for even length. -/
def listMedian (l : List ℚ) : ℚ :=
  let s := sortedAsc l
  if l.length % 2 = 1 then s.getD (l.length / 2) 0
  else (s.getD (l.length / 2 - 1) 0 + s.getD (l.length / 2) 0) / 2

/-- `.max()` of a non-empty series. -/
def listMax : List ℚ → ℚ
  | [] => 0
  | x :: xs => xs.foldl max x

/-- `.min()` of a non-empty series. -/
def listMin : List ℚ → ℚ
  | [] => 0
  | x :: xs => xs.foldl min x

/-- The four trade-duration statistics, in minutes
(the keys of the dict returned by `calculate_trade_duration_stats`). -/
structure DurationStats where
  avg_trade_duration : ℚ
  median_trade_duration : ℚ
  max_trade_duration : ℚ
  min_trade_duration : ℚ
deriving DecidableEq, Repr

/-- The bar interval in minutes (`core/metrics.py` lines 28-32): the
difference of the first two index timestamps (`stamps`, in seconds) divided
by 60 when the index is time-based and holds more than one timestamp,
otherwise the fallback `1`. -/
def bar_duration (timeBased : Bool) (stamps : List ℚ) : ℚ :=
  if 1 < stamps.length ∧ timeBased then (stamps.getD 1 0 - stamps.getD 0 0) / 60 else 1

/-- `MetricsCalculator.calculate_trade_duration_stats`
(`core/metrics.py` lines 13-42): `{}` (here `none`) on an empty trade
record list, otherwise the mean/median/max/min of
`(exit_idx - entry_idx) * bar_duration`. -/
def calculate_trade_duration_stats (trades : List Trade) (timeBased : Bool)
    (stamps : List ℚ) : Option DurationStats :=
  if trades = [] then none
  else
    let b := bar_duration timeBased stamps
    let durations_minutes := trades.map (fun t => ((t.exitIdx : ℚ) - (t.entryIdx : ℚ)) * b)
    some ⟨listMean durations_minutes, listMedian durations_minutes,
          listMax durations_minutes, listMin durations_minutes⟩

/-- Claim C8 in the specification's wording, as an independent definition
for the refinement comparison: the mean, median, max and min of the
bar-count durations `(exit_index - entry_index)` over the trade ledger,
converted to wall-clock minutes using the bar interval derived from the
difference of the first two index timestamps (defaulting to 1 minute when
the index is not time-based); empty ledger gives empty/absent statistics. -/
def specTradeDurationStats (trades : List Trade) (timeBased : Bool)
    (stamps : List ℚ) : Option DurationStats :=
  if trades = [] then none
  else
    let interval :=
      if 1 < stamps.length ∧ timeBased then (stamps.getD 1 0 - stamps.getD 0 0) / 60 else 1
    let bars := trades.map (fun t => ((t.exitIdx : ℚ) - (t.entryIdx : ℚ)))
    some ⟨listMean bars * interval, listMedian bars * interval,
          listMax bars * interval, listMin bars * interval⟩

/-- `MetricsCalculator.calculate_profit_factor`
(`core/metrics.py` lines 44-65) over the trades' P&L column:
`0.0` when there are no trade records, `float('inf')` when the sum of the
negative P&L values is zero, otherwise
`sum(positive P&L) / abs(sum(negative P&L))`. -/
def calculate_profit_factor (pnls : List ℚ) : FV :=
  if pnls = [] then FV.fin 0
  else
    let gross_profits := (pnls.filter (fun x => 0 < x)).sum
    let gross_losses := (pnls.filter (fun x => x < 0)).sum
    if gross_losses = 0 then FV.pinf
    else FV.fin (gross_profits / |gross_losses|)

/-- The `win_rate` entry of `StrategyBase.calculate_metrics`
(`strategies/base.py` line 69):
`len(trades[trades.pnl > 0]) / len(trades) if len(trades) > 0 else 0.0`. -/
def win_rate (pnls : List ℚ) : ℚ :=
  if 0 < pnls.length then ((pnls.filter (fun x => 0 < x)).length : ℚ) / (pnls.length : ℚ)
  else 0

/- ### Strategy Orchestrator (`strategies/base.py`, `core/backtester.py`)

The vectorbt portfolio accessors used by `calculate_metrics`
(`portfolio.trades.records`, `portfolio.total_return()`, …) are library
calls that may raise; they are modelled as `Except`-valued fields so that
"an exception is raised anywhere in the metrics pipeline" is expressible. -/

/-- A metric value: a float, the integer `total_trades`, or the strategy
name string added by `get_metrics`. -/
inductive MVal where
  | num (v : FV)
  | count (n : ℕ)
  | str (s : String)
deriving DecidableEq, Repr

/-- The slice of a `vbt.Portfolio` consumed by `calculate_metrics`. -/
structure VbtPortfolio where
  trades : Except String (List Trade)
  totalReturn : Except String FV
  sharpeRatio : Except String FV
  maxDrawdown : Except String FV
  positions : Except String (List Trade)
  ordersCount : ℕ
  indexTimeBased : Bool
  indexStamps : List ℚ
deriving Repr

/-- `StrategyBase._calculate_exposure` (`strategies/base.py` lines 96-113):
its own `try/except` returns `0.0` on an exception; otherwise `0.0` for an
empty position list, else the mean holding duration divided by the order
count (a NumPy float division: division by a zero order count yields an
infinity, not an exception). -/
def calculateExposure (p : VbtPortfolio) : FV :=
  match p.positions with
  | Except.error _ => FV.fin 0
  | Except.ok pos =>
      if pos.length = 0 then FV.fin 0
      else
        (FV.fin (listMean (pos.map fun t => ((t.exitIdx : ℚ) - (t.entryIdx : ℚ))))).div
          (FV.fin (p.ordersCount : ℚ))

/-- The duration-stats dict as merged into the metrics record: an empty
dict contributes no keys. -/
def statsEntries : Option DurationStats → List (String × MVal)
  | none => []
  | some s =>
      [("avg_trade_duration", MVal.num (FV.fin s.avg_trade_duration)),
       ("median_trade_duration", MVal.num (FV.fin s.median_trade_duration)),
       ("max_trade_duration", MVal.num (FV.fin s.max_trade_duration)),
       ("min_trade_duration", MVal.num (FV.fin s.min_trade_duration))]

/-- The fixed placeholder record returned by the `except` branch of
`StrategyBase.calculate_metrics` (`strategies/base.py` lines 80-94). -/
def fallbackMetrics : List (String × MVal) :=
  [("total_return", MVal.num (FV.fin 0)),
   ("sharpe_ratio", MVal.num (FV.fin 0)),
   ("max_drawdown", MVal.num (FV.fin 0)),
   ("win_rate", MVal.num (FV.fin 0)),
   ("total_trades", MVal.count 0),
   ("exposure_time", MVal.num (FV.fin 0)),
   ("avg_trade_duration", MVal.num (FV.fin 0)),
   ("median_trade_duration", MVal.num (FV.fin 0)),
   ("max_trade_duration", MVal.num (FV.fin 0)),
   ("min_trade_duration", MVal.num (FV.fin 0)),
   ("profit_factor", MVal.num (FV.fin 0))]

/-- `StrategyBase.calculate_metrics` (`strategies/base.py` lines 53-94):
the `try` block builds the metrics dict from the portfolio accessors (in
source order); any exception among them falls into the `except` branch,
which returns the fixed zero-valued placeholder record. -/
def calculate_metrics (p : VbtPortfolio) : List (String × MVal) :=
  match (do
    let trades ← p.trades
    let tr ← p.totalReturn
    let sr ← p.sharpeRatio
    let mdd ← p.maxDrawdown
    Except.ok (
      [("total_return", MVal.num tr),
       ("sharpe_ratio", MVal.num sr),
       ("max_drawdown", MVal.num mdd),
       ("win_rate", MVal.num (FV.fin (win_rate (trades.map Trade.pnl)))),
       ("total_trades", MVal.count trades.length),
       ("exposure_time", MVal.num (calculateExposure p))]
      ++ statsEntries (calculate_trade_duration_stats trades p.indexTimeBased p.indexStamps)
      ++ [("profit_factor", MVal.num (calculate_profit_factor (trades.map Trade.pnl)))]) :
    Except String (List (String × MVal))) with
  | Except.ok m => m
  | Except.error _ => fallbackMetrics

/-- A strategy as the backtest runner sees it: `run_backtest()` may raise
(signals/simulation), and `get_metrics()` re-runs the backtest and then
merges `calculate_metrics` with the strategy's own parameter entries
(which never raise). -/
structure Strategy where
  backtest : Except String VbtPortfolio
  params : List (String × MVal)
deriving Repr

/-- `get_metrics` of a concrete strategy (e.g. `sma_cross.py` lines 76-90):
`portfolio = self.run_backtest()`, then `calculate_metrics(portfolio)`
updated with the strategy identity/parameters. -/
def Strategy.get_metrics (s : Strategy) : Except String (List (String × MVal)) := do
  let p ← s.backtest
  Except.ok (calculate_metrics p ++ s.params)

/-- `Backtester.run_backtest` (`core/backtester.py` lines 62-77): returns
the metrics/portfolio dict, or `None` when the strategy raised. -/
def Backtester.run_backtest (s : Strategy) :
    Option (List (String × MVal) × VbtPortfolio) :=
  match (do
    let p ← s.backtest
    let m ← s.get_metrics
    Except.ok (m, p) : Except String (List (String × MVal) × VbtPortfolio)) with
  | Except.ok r => some r
  | Except.error _ => none

/-- A portfolio whose `total_return()` raises while everything else is
healthy: a metrics-pipeline failure. -/
def failingPortfolio : VbtPortfolio :=
  { trades := Except.ok []
    totalReturn := Except.error "metrics pipeline failure"
    sharpeRatio := Except.ok (FV.fin 0)
    maxDrawdown := Except.ok (FV.fin 0)
    positions := Except.ok []
    ordersCount := 0
    indexTimeBased := false
    indexStamps := [] }

/-- A strategy whose backtest succeeds but whose metrics pipeline fails. -/
def failingMetricsStrategy : Strategy :=
  { backtest := Except.ok failingPortfolio, params := [] }

/-- `true` when a modelled library call raised (its `Except` is an
`error`). -/
def raised {α : Type} : Except String α → Bool
  | Except.error _ => true
  | Except.ok _ => false

/- ### Helper lemmas -/

theorem FV.sub_nan (x : FV) : x.sub FV.nan = FV.nan := by
  cases x <;> rfl

theorem FV.nan_div (y : FV) : FV.nan.div y = FV.nan := by
  cases y <;> rfl

theorem FV.ltb_nan_left (y : FV) : FV.nan.ltb y = false := by
  cases y <;> rfl

theorem FV.ltb_nan_right (x : FV) : x.ltb FV.nan = false := by
  cases x <;> rfl

theorem sum_map_mul (l : List ℚ) (c : ℚ) :
    (l.map (fun x => x * c)).sum = l.sum * c := by
  induction l with
  | nil => simp
  | cons x xs ih => simp [ih, add_mul]

theorem listMean_map_mul (l : List ℚ) (c : ℚ) :
    listMean (l.map (fun x => x * c)) = listMean l * c := by
  simp [listMean, sum_map_mul, mul_div_right_comm]

theorem sortedAsc_map_mul (l : List ℚ) (c : ℚ) (hc : 0 ≤ c) :
    sortedAsc (l.map (fun x => x * c)) = (sortedAsc l).map (fun x => x * c) := by
  have hperm : List.Perm (sortedAsc (l.map (fun x => x * c)))
      ((sortedAsc l).map (fun x => x * c)) :=
    (List.perm_insertionSort _ _).trans (((List.perm_insertionSort _ l).map _).symm)
  have h1 : List.Sorted (· ≤ ·) (sortedAsc (l.map (fun x => x * c))) :=
    List.sorted_insertionSort _ _
  have h2 : List.Sorted (· ≤ ·) ((sortedAsc l).map (fun x => x * c)) :=
    List.Pairwise.map _ (fun a b hab => mul_le_mul_of_nonneg_right hab hc)
      (List.sorted_insertionSort _ l)
  exact List.eq_of_perm_of_sorted hperm h1 h2

theorem getD_map_mul (l : List ℚ) (c : ℚ) (i : ℕ) :
    (l.map (fun x => x * c)).getD i 0 = l.getD i 0 * c := by
  by_cases h : i < l.length
  · rw [List.getD_eq_getElem _ _ (by simpa using h), List.getD_eq_getElem _ _ h]
    simp
  · rw [List.getD_eq_default _ _ (by simpa using not_lt.mp h),
      List.getD_eq_default _ _ (not_lt.mp h)]
    simp

theorem listMedian_map_mul (l : List ℚ) (c : ℚ) (hc : 0 ≤ c) :
    listMedian (l.map (fun x => x * c)) = listMedian l * c := by
  simp only [listMedian, sortedAsc_map_mul l c hc, List.length_map, getD_map_mul]
  by_cases h : l.length % 2 = 1
  · simp [h]
  · simp [h]
    ring

theorem foldl_max_map_mul (xs : List ℚ) (c : ℚ) (hc : 0 ≤ c) :
    ∀ a : ℚ, (xs.map (fun x => x * c)).foldl max (a * c) = xs.foldl max a * c := by
  induction xs with
  | nil => intro a; simp
  | cons x xs ih =>
      intro a
      simp only [List.map_cons, List.foldl_cons]
      rw [← max_mul_of_nonneg a x hc, ih]

theorem listMax_map_mul (l : List ℚ) (c : ℚ) (hc : 0 ≤ c) :
    listMax (l.map (fun x => x * c)) = listMax l * c := by
  cases l with
  | nil => simp [listMax]
  | cons x xs => simp [listMax, foldl_max_map_mul xs c hc]

theorem foldl_min_map_mul (xs : List ℚ) (c : ℚ) (hc : 0 ≤ c) :
    ∀ a : ℚ, (xs.map (fun x => x * c)).foldl min (a * c) = xs.foldl min a * c := by
  induction xs with
  | nil => intro a; simp
  | cons x xs ih =>
      intro a
      simp only [List.map_cons, List.foldl_cons]
      rw [← min_mul_of_nonneg a x hc, ih]

theorem listMin_map_mul (l : List ℚ) (c : ℚ) (hc : 0 ≤ c) :
    listMin (l.map (fun x => x * c)) = listMin l * c := by
  cases l with
  | nil => simp [listMin]
  | cons x xs => simp [listMin, foldl_min_map_mul xs c hc]

theorem sum_lt_zero_of_all_neg (l : List ℚ) (hne : l ≠ [])
    (h : ∀ x ∈ l, x < 0) : l.sum < 0 := by
  induction l with
  | nil => exact absurd rfl hne
  | cons x xs ih =>
      rcases List.eq_nil_or_concat xs with h0 | _
      · subst h0
        simpa using h x (by simp)
      · have hx : x < 0 := h x (by simp)
        by_cases hxs : xs = []
        · subst hxs
          simpa using hx
        · have := ih hxs (fun y hy => h y (List.mem_cons_of_mem _ hy))
          simp only [List.sum_cons]
          linarith

theorem sum_filter_neg_lt_zero (l : List ℚ) (hx : ∃ x ∈ l, x < 0) :
    (l.filter (fun x => x < 0)).sum < 0 := by
  obtain ⟨x, hmem, hneg⟩ := hx
  apply sum_lt_zero_of_all_neg
  · intro hnil
    have : x ∈ l.filter (fun x => x < 0) := List.mem_filter.mpr ⟨hmem, by simpa using hneg⟩
    simp [hnil] at this
  · intro y hy
    simpa using (List.mem_filter.mp hy).2

/- ### Claim theorems -/

/-- C2 (confirmed): for the crossover variant, at every in-range timestamp
of a (NaN-free) close series, `fast SMA > slow SMA` gives signal `+1`,
`fast SMA < slow SMA` gives `-1`, exact equality gives `0`, and any
warm-up cell of either moving average (in particular every timestamp with
`i + 1 < max fast slow`) gives `0`. -/
theorem c2_sma_crossover_cases (fast slow : ℕ) (prices : List ℚ) (i : ℕ)
    (hi : i < prices.length) :
    (∀ f s, smaAt fast prices i = some f → smaAt slow prices i = some s →
      ((s < f → smaCrossSignalAt fast slow prices i = 1) ∧
       (f < s → smaCrossSignalAt fast slow prices i = -1) ∧
       (f = s → smaCrossSignalAt fast slow prices i = 0))) ∧
    ((smaAt fast prices i = none ∨ smaAt slow prices i = none) →
      smaCrossSignalAt fast slow prices i = 0) ∧
    (i + 1 < max fast slow → smaCrossSignalAt fast slow prices i = 0) := by
  refine ⟨?_, ?_, ?_⟩
  · intro f s hf hs
    refine ⟨fun hfs => ?_, fun hfs => ?_, fun hfs => ?_⟩ <;>
      simp only [smaCrossSignalAt, hf, hs]
    · rw [if_pos hfs]
    · rw [if_neg (asymm hfs), if_pos hfs]
    · rw [if_neg (by simp [hfs]), if_neg (by simp [hfs])]
  · intro h
    rcases h with h | h
    · simp only [smaCrossSignalAt, h]
    · simp only [smaCrossSignalAt, h]
      cases smaAt fast prices i <;> rfl
  · intro h
    rcases lt_or_le (i + 1) fast with hf | hf
    · have hnone : smaAt fast prices i = none := by simp [smaAt, hf]
      simp only [smaCrossSignalAt, hnone]
    · have hslow : i + 1 < slow := by omega
      have hnone : smaAt slow prices i = none := by simp [smaAt, hslow]
      simp only [smaCrossSignalAt, hnone]
      cases smaAt fast prices i <;> rfl

/-- Witness for C2 at a concrete input: prices `[1, 2, 3]`, fast window 1,
slow window 2, position 1: fast SMA `2` exceeds slow SMA `3/2`, signal is
`+1`. -/
theorem c2_witness : smaCrossSignalAt 1 2 [1, 2, 3] 1 = 1 := by
  have h := (c2_sma_crossover_cases 1 2 [1, 2, 3] 1 (by norm_num)).1 2 (3 / 2)
    (by norm_num [smaAt]) (by norm_num [smaAt])
  exact h.1 (by norm_num)

/-- C3 (confirmed): every cell any of the three signal generators emits is
in the closed world `{-1, 0, 1}`. -/
theorem c3_signals_closed_world (fast slow rsiW bbW wV : ℕ)
    (k osold obought thr : ℚ) (pricesA pricesB : List ℚ)
    (high low close volume : List FV) (i : ℕ) :
    (smaCrossSignalAt fast slow pricesA i = -1 ∨
     smaCrossSignalAt fast slow pricesA i = 0 ∨
     smaCrossSignalAt fast slow pricesA i = 1) ∧
    (rsiBBSignalAt rsiW bbW k osold obought pricesB i = -1 ∨
     rsiBBSignalAt rsiW bbW k osold obought pricesB i = 0 ∨
     rsiBBSignalAt rsiW bbW k osold obought pricesB i = 1) ∧
    (vwapSignalAt wV thr high low close volume i = -1 ∨
     vwapSignalAt wV thr high low close volume i = 0 ∨
     vwapSignalAt wV thr high low close volume i = 1) := by
  refine ⟨?_, ?_, ?_⟩
  · simp only [smaCrossSignalAt]
    rcases smaAt fast pricesA i with _ | f <;> rcases smaAt slow pricesA i with _ | s
    · simp
    · simp
    · simp
    · dsimp only
      split_ifs <;> simp
  · simp only [rsiBBSignalAt]
    split_ifs <;> simp
  · simp only [vwapSignalAt]
    split_ifs <;> simp

/-- C5 (code bug): with a NaN close point — and likewise with a fully
empty (all-NaN) close column — `generate_signals` of the SMA-crossover and
RSI+Bollinger strategies computes the signal array over the
`dropna()`-compacted series and then assigns it to the full-length column,
so pandas raises `ValueError` instead of skipping the timestamp / returning
a flat result. -/
theorem c5_nan_close_raises :
    generate_signals_sma 10 50 [some 1, none] =
      Except.error "Length of values does not match length of index" ∧
    generate_signals_rsibb 14 20 2 30 70 [some 1, none] =
      Except.error "Length of values does not match length of index" ∧
    generate_signals_sma 10 50 [none, none] =
      Except.error "Length of values does not match length of index" := by
  refine ⟨?_, ?_, ?_⟩ <;> rfl

/-- C6 (confirmed): `calculate_profit_factor` is `0.0` on an empty trade
list, `+inf` when there is no losing trade but at least one winning trade,
equals `sum(positive P&L) / |sum(negative P&L)|` whenever a losing trade
exists, and is never NaN. -/
theorem c6_profit_factor_spec (pnls : List ℚ) :
    (pnls = [] → calculate_profit_factor pnls = FV.fin 0) ∧
    (pnls ≠ [] → (∀ x ∈ pnls, ¬ x < 0) → (∃ x ∈ pnls, 0 < x) →
      calculate_profit_factor pnls = FV.pinf) ∧
    ((∃ x ∈ pnls, x < 0) →
      calculate_profit_factor pnls =
        FV.fin ((pnls.filter (fun x => 0 < x)).sum /
          |(pnls.filter (fun x => x < 0)).sum|)) ∧
    calculate_profit_factor pnls ≠ FV.nan := by
  refine ⟨?_, ?_, ?_, ?_⟩
  · intro h
    simp [calculate_profit_factor, h]
  · intro hne hnoneg _
    have hnil : pnls.filter (fun x => x < 0) = [] :=
      List.filter_eq_nil_iff.mpr (by simpa using hnoneg)
    simp [calculate_profit_factor, hne, hnil]
  · intro hex
    have hlt := sum_filter_neg_lt_zero pnls hex
    obtain ⟨x, hx, _⟩ := hex
    have hne : pnls ≠ [] := List.ne_nil_of_mem hx
    simp [calculate_profit_factor, hne, hlt.ne]
  · simp only [calculate_profit_factor]
    split_ifs <;> simp

/-- Witness for C6 at trades with P&L `[2, -1]`: one losing trade exists,
so the profit factor is `2 / |-1| = 2`. -/
theorem c6_witness : calculate_profit_factor [2, -1] = FV.fin 2 := by
  have h := (c6_profit_factor_spec [2, -1]).2.2.1 ⟨-1, by norm_num, by norm_num⟩
  rw [h]
  norm_num [List.filter]

/-- C7 (confirmed): `win_rate` is `0.0` (not NaN, not an error) on zero
trades, and otherwise equals the number of strictly-positive-P&L trades
divided by the number of all trade records. -/
theorem c7_win_rate_spec (pnls : List ℚ) :
    (pnls.length = 0 → win_rate pnls = 0) ∧
    (pnls ≠ [] → win_rate pnls =
      (pnls.countP (fun x => decide (0 < x)) : ℚ) / (pnls.length : ℚ)) := by
  constructor
  · intro h
    simp [win_rate, h]
  · intro h
    have hlen : 0 < pnls.length := List.length_pos.mpr h
    simp [win_rate, hlen, List.countP_eq_length_filter]

/-- Witness for C7 at trades with P&L `[1, -1]`: one winner out of two
trades, `win_rate = 1/2`. -/
theorem c7_witness : win_rate [1, -1] = 1 / 2 := by
  have h := (c7_win_rate_spec [1, -1]).2 (by simp)
  rw [h]
  norm_num [List.countP, List.countP.go]

/-- C10 (confirmed): with a non-empty trade list in which no trade has
strictly negative P&L, the profit factor is `+inf` even when no trade has
strictly positive P&L (the gross-loss sum is `0`, and only that is
tested). -/
theorem c10_no_losses_pinf (pnls : List ℚ) (hne : pnls ≠ [])
    (hnoneg : ∀ x ∈ pnls, ¬ x < 0) : calculate_profit_factor pnls = FV.pinf := by
  have hnil : pnls.filter (fun x => x < 0) = [] :=
    List.filter_eq_nil_iff.mpr (by simpa using hnoneg)
  simp [calculate_profit_factor, hne, hnil]

/-- Witness for C10 at the single all-zero-P&L trade list `[0]`: the
result is `+inf`, not `0.0`. -/
theorem c10_witness : calculate_profit_factor [0] = FV.pinf :=
  c10_no_losses_pinf [0] (by simp) (by norm_num)

/-- C4 counterexample: with lookback window 2 and threshold `1/100`, on
the panel `high = [0, 6]`, `low = [0, 3]`, `close = [0, 3]`,
`volume = [1, 0]` (all values present, none fabricated), the VWAP at the
second bar is exactly `0`, so the deviation `(close - vwap)/vwap = 3/0` is
`+inf` — and the emitted signal is `-1`, not the claimed `0`. -/
theorem c4_counterexample :
    calculate_vwap 2 [FV.fin 0, FV.fin 6] [FV.fin 0, FV.fin 3]
      [FV.fin 0, FV.fin 3] [FV.fin 1, FV.fin 0] 1 = FV.fin 0 ∧
    vwapSignalAt 2 (1 / 100) [FV.fin 0, FV.fin 6] [FV.fin 0, FV.fin 3]
      [FV.fin 0, FV.fin 3] [FV.fin 1, FV.fin 0] 1 = -1 := by
  constructor
  · norm_num [calculate_vwap, rollingSumFV, typicalPrices,
      FV.add, FV.mul, FV.div, FV.sub, FV.neg]
  · norm_num [vwapSignalAt, calculate_vwap, rollingSumFV, typicalPrices,
      FV.add, FV.mul, FV.div, FV.sub, FV.neg, FV.ltb]

/-- C4 amended (proved): at every timestamp in the warm-up period, and at
every timestamp where the VWAP value is NaN (missing inputs in the window,
or the `0/0` case of an all-zero volume window), the VWAP-reversion signal
is `0` and no exception is raised; the one exception the original claim
missed is a VWAP of exactly `0` against a non-zero close, where the
deviation is a signed infinity and the signal is `∓1`
(see the counterexample). -/
theorem c4_amended_undefined_zero (w : ℕ) (thr : ℚ)
    (high low close volume : List FV) (i : ℕ)
    (h : i + 1 < w ∨ calculate_vwap w high low close volume i = FV.nan) :
    vwapSignalAt w thr high low close volume i = 0 := by
  have hvwap : calculate_vwap w high low close volume i = FV.nan := by
    rcases h with h | h
    · simp [calculate_vwap, rollingSumFV, h, FV.nan_div]
    · exact h
  simp [vwapSignalAt, hvwap, FV.sub_nan, FV.nan_div,
    FV.ltb_nan_left, FV.ltb_nan_right]

/-- Witness for the amended C4: an empty panel position 0 is in the 2-bar
warm-up, so the signal is `0`. -/
theorem c4_witness : vwapSignalAt 2 (1 / 100) [] [] [] [] 0 = 0 :=
  c4_amended_undefined_zero 2 (1 / 100) [] [] [] [] 0 (Or.inl (by norm_num))

/-- C1 counterexample: on the single-bar series `close = [100]`,
`signal = [-1]` (slippage `1/2000`), the claimed FLAT/LONG/SHORT machine
opens a SHORT position at `100 * (1 - slippage)`, but the simulator the
code actually runs (`from_signals` with `entries = signal==1`,
`exits = signal==-1`) stays FLAT and records nothing. -/
theorem c1_counterexample :
    (from_signals (1 / 2000) [100] [-1]).pos = none ∧
    (from_signals (1 / 2000) [100] [-1]).trades = [] ∧
    (specStateMachine (1 / 2000) [100] [-1]).pos =
      some ⟨0, 100 * (1 - 1 / 2000), Dir.short⟩ ∧
    from_signals (1 / 2000) [100] [-1] ≠ specStateMachine (1 / 2000) [100] [-1] := by
  have h1 : (from_signals (1 / 2000) [100] [-1]).pos = none := by
    norm_num [from_signals, fromSignalsStep, List.enum, List.enumFrom,
      List.zip, List.zipWith]
  have h3 : (specStateMachine (1 / 2000) [100] [-1]).pos =
      some ⟨0, 100 * (1 - 1 / 2000), Dir.short⟩ := by
    norm_num [specStateMachine, specFullStep, dirValue, specAdjustedEntry,
      List.enum, List.enumFrom, List.zip, List.zipWith]
  refine ⟨h1, ?_, h3, fun heq => ?_⟩
  · norm_num [from_signals, fromSignalsStep, List.enum, List.enumFrom,
      List.zip, List.zipWith]
  · rw [heq, h3] at h1
    simp at h1

theorem from_signals_foldl_aux (slippage : ℚ) (l : List (ℕ × ℚ × ℤ)) :
    ∀ st : SimState, (∀ p, st.pos = some p → p.dir = Dir.long) →
      (∀ t ∈ st.trades, t.dir = Dir.long) →
      l.foldl (fromSignalsStep slippage) st = l.foldl (specLongOnlyStep slippage) st ∧
      (∀ p, (l.foldl (fromSignalsStep slippage) st).pos = some p → p.dir = Dir.long) ∧
      (∀ t ∈ (l.foldl (fromSignalsStep slippage) st).trades, t.dir = Dir.long) := by
  induction l with
  | nil =>
      intro st h1 h2
      exact ⟨rfl, h1, h2⟩
  | cons hd tl ih =>
      intro st h1 h2
      have hstep : fromSignalsStep slippage st hd = specLongOnlyStep slippage st hd ∧
          (∀ p, (fromSignalsStep slippage st hd).pos = some p → p.dir = Dir.long) ∧
          (∀ t ∈ (fromSignalsStep slippage st hd).trades, t.dir = Dir.long) := by
        rcases st with ⟨pos, trades⟩
        rcases pos with _ | p
        · by_cases hs1 : hd.2.2 = 1
          · refine ⟨?_, ?_, ?_⟩
            · simp [fromSignalsStep, specLongOnlyStep, dirValue, hs1]
            · intro p hp
              simp [fromSignalsStep, hs1] at hp
              simp [← hp]
            · intro t ht
              exact h2 t (by simpa [fromSignalsStep, hs1] using ht)
          · by_cases hs0 : hd.2.2 = 0
            · refine ⟨?_, fun p hp => h1 p ?_, fun t ht => h2 t ?_⟩
              · simp [fromSignalsStep, specLongOnlyStep, dirValue, hs1, hs0]
              · simpa [fromSignalsStep, hs1] using hp
              · simpa [fromSignalsStep, hs1] using ht
            · refine ⟨?_, fun p hp => h1 p ?_, fun t ht => h2 t ?_⟩
              · simp [fromSignalsStep, specLongOnlyStep, dirValue, hs1, hs0]
              · simpa [fromSignalsStep, hs1] using hp
              · simpa [fromSignalsStep, hs1] using ht
        · have hpd : p.dir = Dir.long := h1 p rfl
          by_cases hsm1 : hd.2.2 = -1
          · refine ⟨?_, ?_, ?_⟩
            · simp [fromSignalsStep, specLongOnlyStep, dirValue, hsm1, hpd]
            · intro q hq
              simp [fromSignalsStep, hsm1] at hq
            · intro t ht
              have ht' : t ∈ trades ∨
                  t = ⟨p.entryIdx, p.entryPrice, hd.1,
                    hd.2.1 * (1 - slippage), p.dir⟩ := by
                simpa [fromSignalsStep, hsm1] using ht
              rcases ht' with hmem | hmem
              · exact h2 t hmem
              · rw [hmem]
                exact hpd
          · by_cases hs1 : hd.2.2 = 1
            · refine ⟨?_, fun q hq => h1 q ?_, fun t ht => h2 t ?_⟩
              · simp [fromSignalsStep, specLongOnlyStep, dirValue, hsm1, hs1, hpd]
              · simpa [fromSignalsStep, hsm1] using hq
              · simpa [fromSignalsStep, hsm1] using ht
            · refine ⟨?_, fun q hq => h1 q ?_, fun t ht => h2 t ?_⟩
              · simp [fromSignalsStep, specLongOnlyStep, dirValue, hsm1, hs1, hpd]
              · simpa [fromSignalsStep, hsm1] using hq
              · simpa [fromSignalsStep, hsm1] using ht
      rw [List.foldl_cons, List.foldl_cons, ← hstep.1]
      exact ih (fromSignalsStep slippage st hd) hstep.2.1 hstep.2.2

/-- C1 amended (proved): the simulator the code runs is the long-only
FLAT/LONG machine — it coincides with the machine that opens a long at
`close * (1 + slippage)` on a `+1` while FLAT and closes it at
`close * (1 - slippage)` on a `-1` while LONG (all other combinations,
including `-1` while FLAT, do nothing), and it never produces a SHORT
position or a SHORT trade. -/
theorem c1_amended_long_only (slippage : ℚ) (closes : List ℚ) (signals : List ℤ) :
    from_signals slippage closes signals = specLongOnlyMachine slippage closes signals ∧
    (∀ t ∈ (from_signals slippage closes signals).trades, t.dir = Dir.long) ∧
    (∀ p, (from_signals slippage closes signals).pos = some p → p.dir = Dir.long) := by
  have h := from_signals_foldl_aux slippage ((closes.zip signals).enum) ⟨none, []⟩
    (by intro p hp; cases hp) (by simp)
  exact ⟨h.1, h.2.2, h.2.1⟩

/-- Witness for the amended C1 on `close = [100, 101]`,
`signal = [1, -1]`: the two machines agree, and the single recorded trade
(entry `100 * (1 + slippage)` at bar 0, exit `101 * (1 - slippage)` at
bar 1) is a long trade. -/
theorem c1_witness :
    from_signals (1 / 2000) [100, 101] [1, -1] =
      specLongOnlyMachine (1 / 2000) [100, 101] [1, -1] ∧
    TradeLog.dir ⟨0, 100 * (1 + 1 / 2000), 1, 101 * (1 - 1 / 2000), Dir.long⟩ =
      Dir.long := by
  refine ⟨(c1_amended_long_only (1 / 2000) [100, 101] [1, -1]).1, ?_⟩
  exact (c1_amended_long_only (1 / 2000) [100, 101] [1, -1]).2.1 _
    (by norm_num [from_signals, fromSignalsStep, List.enum, List.enumFrom,
      List.zip, List.zipWith])

/-- C8 (confirmed): for a time-ordered index, the trade-duration statistics
the code computes (`mean/median/max/min` of `(exit_idx - entry_idx)` scaled
cell-wise by the bar interval) are exactly the specification's statistics
of the bar-count durations converted to wall-clock minutes with the bar
interval derived from the first two timestamps (1 minute when the index is
not time-based); an empty ledger gives `none` (an empty dict), not an
error. -/
theorem c8_duration_stats (trades : List Trade) (timeBased : Bool)
    (stamps : List ℚ) (hs : List.Sorted (· ≤ ·) stamps) :
    calculate_trade_duration_stats trades timeBased stamps =
      specTradeDurationStats trades timeBased stamps := by
  by_cases hne : trades = []
  · simp [calculate_trade_duration_stats, specTradeDurationStats, hne]
  · have hb : 0 ≤ bar_duration timeBased stamps := by
      unfold bar_duration
      split_ifs with hcond
      · have h01 : stamps.getD 0 0 ≤ stamps.getD 1 0 := by
          rw [List.getD_eq_getElem _ _ (by omega), List.getD_eq_getElem _ _ hcond.1]
          exact List.pairwise_iff_get.mp hs ⟨0, by omega⟩ ⟨1, hcond.1⟩ (by simp)
        have := sub_nonneg.mpr h01
        positivity
      · norm_num
    have hbd : (if 1 < stamps.length ∧ timeBased then
        (stamps.getD 1 0 - stamps.getD 0 0) / 60 else 1) =
        bar_duration timeBased stamps := rfl
    have hcomp : (fun t : Trade =>
        ((t.exitIdx : ℚ) - (t.entryIdx : ℚ)) * bar_duration timeBased stamps) =
        (fun x => x * bar_duration timeBased stamps) ∘
          (fun t : Trade => ((t.exitIdx : ℚ) - (t.entryIdx : ℚ))) := rfl
    simp only [calculate_trade_duration_stats, specTradeDurationStats, hne,
      if_false, hbd, hcomp, ← List.map_map]
    rw [listMean_map_mul, listMedian_map_mul _ _ hb, listMax_map_mul _ _ hb,
      listMin_map_mul _ _ hb]

/-- Witness for C8: one trade from bar 0 to bar 2 over a time-based index
with 60-second bars; both sides agree. -/
theorem c8_witness :
    calculate_trade_duration_stats [⟨0, 2, 0⟩] true [0, 60] =
      specTradeDurationStats [⟨0, 2, 0⟩] true [0, 60] :=
  c8_duration_stats [⟨0, 2, 0⟩] true [0, 60] (by norm_num [List.sorted_cons])

/-- C9 counterexample: a strategy whose backtest succeeds but whose
metrics pipeline raises (`total_return()` fails) still yields a Metrics
Record — the zero-filled placeholder — from `Backtester.run_backtest`,
not `None`. -/
theorem c9_counterexample :
    Backtester.run_backtest failingMetricsStrategy =
      some (fallbackMetrics, failingPortfolio) ∧
    calculate_metrics failingPortfolio = fallbackMetrics := by
  constructor <;> rfl

/-- C9 amended (proved): an exception inside the metrics pipeline is caught
by `calculate_metrics`, which returns the fixed zero-valued placeholder
record (so the strategy still yields a record); only an exception in the
strategy's own `run_backtest` makes `Backtester.run_backtest` yield no
result (`None`). -/
theorem c9_amended_placeholder :
    (∀ p : VbtPortfolio,
      (raised p.trades || raised p.totalReturn || raised p.sharpeRatio ||
        raised p.maxDrawdown) = true →
      calculate_metrics p = fallbackMetrics) ∧
    (∀ s : Strategy, raised s.backtest = true →
      Backtester.run_backtest s = none) := by
  constructor
  · intro p h
    rcases p with ⟨tr, toR, sh, md, pos, oc, tb, stm⟩
    rcases tr with e | trv
    · rfl
    rcases toR with e | torv
    · rfl
    rcases sh with e | shv
    · rfl
    rcases md with e | mdv
    · rfl
    simp [raised] at h
  · intro s h
    rcases s with ⟨bt, ps⟩
    rcases bt with e | p
    · rfl
    simp [raised] at h

/-- Witness for the amended C9: a portfolio whose `sharpe_ratio()` raises
gets the placeholder record, and a strategy whose backtest raises yields
`None`. -/
theorem c9_witness :
    calculate_metrics
      { failingPortfolio with sharpeRatio := Except.error "sharpe failure" } =
      fallbackMetrics ∧
    Backtester.run_backtest
      { backtest := Except.error "backtest failure", params := [] } = none := by
  refine ⟨c9_amended_placeholder.1 _ ?_, c9_amended_placeholder.2 _ ?_⟩ <;> rfl
